import Mathlib

/-!
Verification development for the schema-tolerant external-record mapper of
`src/server.js` (InnovaCSE director service).  The JavaScript helpers that
discover a Notion database's property schema (`getDbMeta`), encode values
(`rich`, `titleProp`, `dateProp`, `safeSelect`, `safeMultiSelect`) and build
the property sets written by `POST /run` are embedded shallowly below, and
the testable properties of the specification are settled as theorems.
-/

namespace InnovaCSE

/-- A JavaScript value, as produced by `JSON.parse` on the model output plus
the `null`/`undefined` distinction used by the helpers. -/
inductive JSValue where
  | vNull
  | vUndefined
  | vBool (b : Bool)
  | vNum (n : Int)
  | vStr (s : String)
  | vArr (elems : List JSValue)

/-- JavaScript truthiness (`!value`, `value || other`, `filter(Boolean)`):
`null`, `undefined`, `false`, `0` and `""` are falsy; arrays are always
truthy. -/
def truthy : JSValue → Bool
  | .vNull => false
  | .vUndefined => false
  | .vBool b => b
  | .vNum n => n != 0
  | .vStr s => s != ""
  | .vArr _ => true

/-- JavaScript `a || b`. -/
def jsOr (a b : JSValue) : JSValue := if truthy a then a else b

/-- JavaScript `a ?? b` (nullish coalescing). -/
def jsNN (a b : JSValue) : JSValue :=
  match a with
  | .vNull => b
  | .vUndefined => b
  | v => v

mutual

/-- JavaScript `String(v)` coercion. -/
def jsString : JSValue → String
  | .vNull => "null"
  | .vUndefined => "undefined"
  | .vBool b => if b then "true" else "false"
  | .vNum n => toString n
  | .vStr s => s
  | .vArr xs => arrJoin xs

/-- Rendering of `Array.prototype.toString`: elements joined by ",". -/
def arrJoin : List JSValue → String
  | [] => ""
  | [x] => arrElemStr x
  | x :: xs => arrElemStr x ++ "," ++ arrJoin xs

/-- An array element rendered by `join`/`toString`: `null` and `undefined`
become the empty string, other values go through `String(v)`. -/
def arrElemStr : JSValue → String
  | .vNull => ""
  | .vUndefined => ""
  | .vBool b => if b then "true" else "false"
  | .vNum n => toString n
  | .vStr s => s
  | .vArr xs => arrJoin xs

end

/-- JavaScript `Array.prototype.join(sep)`. -/
def jsJoinSep (sep : String) (xs : List JSValue) : String :=
  String.intercalate sep (xs.map arrElemStr)

/-- JavaScript `s.slice(0, n)`: keep the first `n` characters. -/
def jsSlice (s : String) (n : Nat) : String := String.mk (s.data.take n)

/-- One Notion property definition as returned by `databases.retrieve`:
its declared `type` and, for `select`/`multi_select`, the option names. -/
structure PropDef where
  type : String
  options : List String := []
  deriving DecidableEq

/-- Association-list lookup with propositional string equality (JavaScript
object / `Map.get` read: first binding for the key). -/
def getProp {α : Type} : List (String × α) → String → Option α
  | [], _ => none
  | (k', v) :: rest, k => if k' = k then some v else getProp rest k

/-- JavaScript object / `Map.set` write: update the existing binding in
place, or append a new one. -/
def setProp {α : Type} : List (String × α) → String → α → List (String × α)
  | [], k, v => [(k, v)]
  | (k', v') :: rest, k, v =>
      if k' = k then (k, v) :: rest else (k', v') :: setProp rest k v

/-- The cached metadata for one database: the discovered title property
name, the raw property definitions, and the per-property sets of valid
select / multi-select option names (`getDbMeta`'s `meta`). -/
structure DbMeta where
  titleProp : String
  props : List (String × PropDef)
  selectOptions : List (String × List String)
  deriving DecidableEq

/-- A Notion property payload as built by the helpers. -/
inductive NotionProp where
  | titleP (content : String)
  | richP (content : String)
  | dateP (start : String)
  | selectP (name : String)
  | multiSelectP (names : List String)
  | checkboxP (b : Bool)
  deriving DecidableEq

/-- Content of the rich-text payload of `function rich(text, max = 1900)`:
`String(text ?? "").slice(0, max)`. -/
def richContent (text : JSValue) (max : Nat := 1900) : String :=
  jsSlice (jsString (jsNN text (.vStr ""))) max

/-- Embeds `function rich(text, max = 1900)`. -/
def rich (text : JSValue) (max : Nat := 1900) : NotionProp :=
  .richP (richContent text max)

/-- Content of the title payload of `function titleProp(text, max = 120)`. -/
def titleContent (text : JSValue) (max : Nat := 120) : String :=
  jsSlice (jsString (jsNN text (.vStr ""))) max

/-- Embeds `function titleProp(text, max = 120)`. -/
def titleProp (text : JSValue) (max : Nat := 120) : NotionProp :=
  .titleP (titleContent text max)

/-- Embeds `function dateProp(iso)`. -/
def dateProp (iso : String) : NotionProp := .dateP iso

/-- Embeds `function safeSelect(meta, propName, value)`: `null` (here `none`) for a
falsy value, a property with no cached option set, or a value the set does
not contain; a non-string truthy value is never a member of the string
set. -/
def safeSelect (meta : DbMeta) (propName : String) (value : JSValue) :
    Option NotionProp :=
  if truthy value = false then none
  else
    match getProp meta.selectOptions propName with
    | none => none
    | some set =>
      match value with
      | .vStr s => if set.contains s then some (.selectP s) else none
      | _ => none

/-- JavaScript `Array.isArray(v)`. -/
def isArr : JSValue → Bool
  | .vArr _ => true
  | _ => false

/-- The element predicate of `safeMultiSelect`'s filter:
`typeof v === "string" && set.has(v)`, keeping the string. -/
def multiPick (set : List String) : JSValue → Option String
  | .vStr s => if set.contains s then some s else none
  | _ => none

/-- Embeds `function safeMultiSelect(meta, propName, values)`: `null` for a
non-array / falsy / empty input or a property with no cached option set;
otherwise the input filtered to strings contained in the set, `null` again
when the filter leaves nothing. -/
def safeMultiSelect (meta : DbMeta) (propName : String) (values : JSValue) :
    Option NotionProp :=
  match values with
  | .vArr xs =>
    if xs.isEmpty then none
    else
      match getProp meta.selectOptions propName with
      | none => none
      | some set =>
        let filtered := xs.filterMap (multiPick set)
        if filtered.isEmpty then none else some (.multiSelectP filtered)
  | _ => none

/-- The title-property scan of `getDbMeta`: first property whose declared
type is `"title"`. -/
def findTitleProp : List (String × PropDef) → Option String
  | [] => none
  | (name, d) :: rest => if d.type = "title" then some name else findTitleProp rest

/-- The select-options scan of `getDbMeta`: for every `select` or
`multi_select` property, its option-name set. -/
def buildSelectOptions (props : List (String × PropDef)) :
    List (String × List String) :=
  props.filterMap fun nd =>
    if nd.2.type = "select" ∨ nd.2.type = "multi_select" then some (nd.1, nd.2.options)
    else none

/-- The pure body of `getDbMeta` after the retrieve resolves: find the
title property (throwing when there is none) and build the cached meta. -/
def getDbMetaPure (database_id : String) (props : List (String × PropDef)) :
    Except String DbMeta :=
  match findTitleProp props with
  | none => .error ("No title property found for DB " ++ database_id)
  | some t => .ok ⟨t, props, buildSelectOptions props⟩

/-- Outcome of one `getDbMeta` call: the result, the cache afterwards, and
how many `databases.retrieve` fetches the call issued. -/
structure MetaResult where
  result : Except String DbMeta
  cache : List (String × DbMeta)
  fetches : Nat

/-- Embeds `async function getDbMeta(database_id)` with the process-lifetime
`cache.dbMeta`, the external `databases.retrieve` modelled as `fetch`:
a cache hit returns the stored meta with no fetch; a miss fetches once,
and stores the meta only on success. -/
def getDbMeta (fetch : String → List (String × PropDef))
    (c : List (String × DbMeta)) (database_id : String) : MetaResult :=
  match getProp c database_id with
  | some m => ⟨.ok m, c, 0⟩
  | none =>
    match getDbMetaPure database_id (fetch database_id) with
    | .error e => ⟨.error e, c, 1⟩
    | .ok m => ⟨.ok m, setProp c database_id m, 1⟩

/-- Reads `m.props[name]?.type`, as tested by the `POST /run` handler before each
conditional property assignment. -/
def propType (m : DbMeta) (name : String) : Option String :=
  (getProp m.props name).map PropDef.type

/-- One element of `data.ecritures_notion.doctrine` (the strict output
schema requires `titre`, `categorie`, `contenu`, `actif`; `version` is read
by the handler although the schema never produces it). -/
structure DoctrineItem where
  titre : JSValue
  categorie : JSValue
  contenu : JSValue
  actif : JSValue
  version : JSValue

/-- One element of `data.ecritures_notion.decisions`. -/
structure DecisionItem where
  titre : JSValue
  statut : JSValue
  domaine : JSValue
  justification : JSValue
  impact : JSValue

/-- One element of `data.ecritures_notion.projets`. -/
structure ProjetItem where
  titre : JSValue
  objectif : JSValue
  statut : JSValue
  priorite : JSValue
  domaine : JSValue

/-- Embeds `data.ecritures_notion`. -/
structure Ecritures where
  doctrine : List DoctrineItem
  decisions : List DecisionItem
  projets : List ProjetItem

/-- The fields of the parsed model response `data` that the `/run` handler
reads when writing to Notion.  `prochaines_actions` is an array by the
strict output schema (`data.prochaines_actions || []` is the identity on an
array, empty or not, since arrays are truthy). -/
structure RunData where
  livrable_final : JSValue
  decision_directeur : JSValue
  domaine : JSValue
  prochaines_actions : List JSValue
  ecritures : Ecritures

/-- The `journalProps` object built by `POST /run` (step 1): the title is
unconditional with the `"Run IA"` fallback; every other key is assigned
only when the discovered schema has it with the matching type. -/
def journalProps (m : DbMeta) (demande_client : JSValue) (data : RunData)
    (nowIso : String) : List (String × NotionProp) :=
  let p := [(m.titleProp, titleProp (jsOr demande_client (.vStr "Run IA")))]
  let p := if propType m "Date" = some "date" then setProp p "Date" (dateProp nowIso) else p
  let p := if propType m "Résultat produit" = some "rich_text" then
      setProp p "Résultat produit" (rich data.livrable_final) else p
  let p := if propType m "Décision prise" = some "rich_text" then
      setProp p "Décision prise" (rich data.decision_directeur) else p
  let p := if propType m "Prochaine action" = some "rich_text" then
      setProp p "Prochaine action"
        (rich (.vStr (jsJoinSep " | " data.prochaines_actions)) 1900) else p
  let p := if propType m "Agents mobilisés" = some "multi_select" then
      match safeMultiSelect m "Agents mobilisés"
          (.vArr (([JSValue.vStr "Directeur", data.domaine]).filter truthy)) with
      | some ms => setProp p "Agents mobilisés" ms
      | none => p
    else p
  p

/-- The `props` object built for one doctrine item by `POST /run` (step 2):
the title is `titleProp(d.titre)` with no fallback; the other keys are
schema-gated. -/
def doctrineProps (m : DbMeta) (d : DoctrineItem) : List (String × NotionProp) :=
  let p := [(m.titleProp, titleProp d.titre)]
  let p := if propType m "Contenu" = some "rich_text" then
      setProp p "Contenu" (rich d.contenu) else p
  let p := if propType m "Version" = some "rich_text" then
      setProp p "Version" (rich (jsNN d.version (.vStr "V1"))) else p
  let p := if propType m "Type" = some "select" then
      match safeSelect m "Type" d.categorie with
      | some s => setProp p "Type" s
      | none => p
    else p
  let p := if propType m "Actif" = some "checkbox" then
      setProp p "Actif" (.checkboxP (truthy d.actif)) else p
  p

/-- The `props` object built for one decision item by `POST /run`
(step 3). -/
def decisionProps (m : DbMeta) (s : DecisionItem) (nowIso : String) :
    List (String × NotionProp) :=
  let p := [(m.titleProp, titleProp s.titre)]
  let p := if propType m "Date" = some "date" then setProp p "Date" (dateProp nowIso) else p
  let p := if propType m "Justification" = some "rich_text" then
      setProp p "Justification" (rich s.justification) else p
  let p := if propType m "Impact" = some "rich_text" then
      setProp p "Impact" (rich s.impact) else p
  let p := if propType m "Statut" = some "select" then
      match safeSelect m "Statut" s.statut with
      | some sel => setProp p "Statut" sel
      | none => p
    else p
  let p := if propType m "Domaine" = some "select" then
      match safeSelect m "Domaine" s.domaine with
      | some sel => setProp p "Domaine" sel
      | none => p
    else p
  p

/-- The `props` object built for one projet item by `POST /run` (step 4). -/
def projetProps (m : DbMeta) (pr : ProjetItem) : List (String × NotionProp) :=
  let p := [(m.titleProp, titleProp pr.titre)]
  let p := if propType m "Objectif" = some "rich_text" then
      setProp p "Objectif" (rich pr.objectif) else p
  let p := if propType m "Statut" = some "select" then
      match safeSelect m "Statut" pr.statut with
      | some sel => setProp p "Statut" sel
      | none => p
    else p
  let p := if propType m "Priorité" = some "select" then
      match safeSelect m "Priorité" pr.priorite with
      | some sel => setProp p "Priorité" sel
      | none => p
    else p
  let p := if propType m "Domaine" = some "select" then
      match safeSelect m "Domaine" pr.domaine with
      | some sel => setProp p "Domaine" sel
      | none => p
    else p
  p

/-- One call issued against the external Notion store. -/
inductive NotionCall where
  | queryDb (dbId : String)
  | createPage (dbId : String) (props : List (String × NotionProp))
  | updatePage (pageId : String) (props : List (String × NotionProp))

/-- Number of `databases.query` calls in a trace. -/
def countQueries (calls : List NotionCall) : Nat :=
  calls.countP fun c => match c with | .queryDb _ => true | _ => false

/-- Number of `pages.create` calls in a trace. -/
def countCreates (calls : List NotionCall) : Nat :=
  calls.countP fun c => match c with | .createPage _ _ => true | _ => false

/-- Number of `pages.update` calls in a trace. -/
def countUpdates (calls : List NotionCall) : Nat :=
  calls.countP fun c => match c with | .updatePage _ _ => true | _ => false

/-- The doctrine write loop of `POST /run` (step 2): one unconditional
`pages.create` per item — no query, no update, no existence check. -/
def doctrineWriteLoop (m : DbMeta) (dbId : String) (items : List DoctrineItem) :
    List NotionCall :=
  items.map fun d => .createPage dbId (doctrineProps m d)

/-- Outcome of the `/run` handler: the success flag of the JSON response
and the trace of Notion page writes it performed. -/
structure RunOutcome where
  ok : Bool
  calls : List NotionCall

/-- The write phase of `POST /run`, from `JSON.parse(raw)` on: a parse
failure throws, is caught by the handler's `catch`, and answers 500 with no
Notion write (every write is sequenced after the parse); on success the
journal entry plus the doctrine, decision and projet items are created. -/
def runHandler (parsed : Option RunData) (mJournal mDoctrine mProjets mDecisions : DbMeta)
    (demande_client : JSValue) (nowIso : String)
    (dbJournal dbDoctrine dbProjets dbDecisions : String) : RunOutcome :=
  match parsed with
  | none => ⟨false, []⟩
  | some data =>
    let jc := NotionCall.createPage dbJournal (journalProps mJournal demande_client data nowIso)
    let dc := doctrineWriteLoop mDoctrine dbDoctrine data.ecritures.doctrine
    let sc := data.ecritures.decisions.map fun s =>
      NotionCall.createPage dbDecisions (decisionProps mDecisions s nowIso)
    let pc := data.ecritures.projets.map fun pr =>
      NotionCall.createPage dbProjets (projetProps mProjets pr)
    ⟨true, jc :: (dc ++ sc ++ pc)⟩

/-! ### Helper lemmas -/

theorem getProp_setProp {α : Type} (l : List (String × α)) (k k' : String) (v : α) :
    getProp (setProp l k' v) k = if k' = k then some v else getProp l k := by
  induction l with
  | nil => simp [setProp, getProp]
  | cons hd tl ih =>
    obtain ⟨k0, v0⟩ := hd
    by_cases h0 : k0 = k'
    · subst h0
      simp only [setProp, if_pos rfl, getProp]
      split <;> simp_all [getProp]
    · simp only [setProp, if_neg h0, getProp, ih]
      by_cases h1 : k0 = k
      · subst h1
        have h2 : k' ≠ k0 := fun he => h0 he.symm
        simp [if_neg h2]
      · simp [if_neg h1]

theorem isSome_getProp_setProp {α : Type} (l : List (String × α)) (k k' : String)
    (v : α) (h : (getProp l k).isSome) : (getProp (setProp l k' v) k).isSome := by
  rw [getProp_setProp]
  split <;> simp_all

theorem isSome_cond_set {c : Prop} [Decidable c] (p : List (String × NotionProp))
    (key : String) (v : NotionProp) (k : String)
    (h : (getProp (if c then setProp p key v else p) k).isSome) :
    (k = key ∧ c) ∨ (getProp p k).isSome := by
  by_cases hc : c
  · rw [if_pos hc, getProp_setProp] at h
    by_cases hk : key = k
    · exact .inl ⟨hk.symm, hc⟩
    · rw [if_neg hk] at h
      exact .inr h
  · rw [if_neg hc] at h
    exact .inr h

theorem isSome_cond_match_set {c : Prop} [Decidable c] (p : List (String × NotionProp))
    (key : String) (o : Option NotionProp) (k : String)
    (h : (getProp (if c then (match o with
            | some s => setProp p key s
            | none => p) else p) k).isSome) :
    (k = key ∧ c) ∨ (getProp p k).isSome := by
  by_cases hc : c
  · rw [if_pos hc] at h
    cases o with
    | none => exact .inr h
    | some s =>
      simp only at h
      rw [getProp_setProp] at h
      by_cases hk : key = k
      · exact .inl ⟨hk.symm, hc⟩
      · rw [if_neg hk] at h
        exact .inr h
  · rw [if_neg hc] at h
    exact .inr h

theorem isSome_cond_set_of_isSome {c : Prop} [Decidable c]
    (p : List (String × NotionProp)) (key : String) (v : NotionProp) (k : String)
    (h : (getProp p k).isSome) :
    (getProp (if c then setProp p key v else p) k).isSome := by
  split
  · exact isSome_getProp_setProp _ _ _ _ h
  · exact h

theorem isSome_cond_match_set_of_isSome {c : Prop} [Decidable c]
    (p : List (String × NotionProp)) (key : String) (o : Option NotionProp) (k : String)
    (h : (getProp p k).isSome) :
    (getProp (if c then (match o with
        | some s => setProp p key s
        | none => p) else p) k).isSome := by
  split
  · cases o with
    | none => exact h
    | some s => exact isSome_getProp_setProp _ _ _ _ h
  · exact h

theorem propType_eq_iff (m : DbMeta) (key t : String) :
    propType m key = some t ↔ ∃ pd, getProp m.props key = some pd ∧ pd.type = t := by
  simp [propType, Option.map_eq_some']

theorem jsSlice_length (s : String) (n : Nat) : (jsSlice s n).length ≤ n := by
  simp only [jsSlice, String.length]
  exact List.length_take_le n s.data

theorem jsSlice_idem (s : String) (n : Nat) : jsSlice (jsSlice s n) n = jsSlice s n := by
  simp [jsSlice, List.take_take]

theorem jsSlice_of_lt (s : String) (n : Nat) (h : s.length < n) : jsSlice s n = s := by
  have hd : s.data.take n = s.data := List.take_of_length_le (Nat.le_of_lt h)
  cases s
  simp only [jsSlice] at *
  rw [hd]

/-- The string carried by a `vStr`, if any. -/
def jsAsString : JSValue → Option String
  | .vStr s => some s
  | _ => none

theorem filterMap_sublist_of_imp {α β : Type} (f g : α → Option β)
    (h : ∀ a b, f a = some b → g a = some b) (l : List α) :
    (l.filterMap f).Sublist (l.filterMap g) := by
  induction l with
  | nil => simp
  | cons x xs ih =>
    cases hf : f x with
    | none =>
      rw [List.filterMap_cons_none hf]
      cases hg : g x with
      | none => rw [List.filterMap_cons_none hg]; exact ih
      | some b => rw [List.filterMap_cons_some hg]; exact ih.cons b
    | some b =>
      rw [List.filterMap_cons_some hf, List.filterMap_cons_some (h x b hf)]
      exact ih.cons₂ b

/-- A concrete meta used to instantiate the hypothesis-bearing theorems:
title property `"Nom"`, a select `"Statut"` with options Active/Closed and
a multi-select `"Tags"` with options A/B. -/
def metaEx : DbMeta where
  titleProp := "Nom"
  props := [("Nom", ⟨"title", []⟩), ("Statut", ⟨"select", ["Active", "Closed"]⟩),
            ("Tags", ⟨"multi_select", ["A", "B"]⟩)]
  selectOptions := [("Statut", ["Active", "Closed"]), ("Tags", ["A", "B"])]

/-! ### Claim theorems -/

/-- Claim C4: `rich` and `titleProp` truncate the string representation of
the value to 1900 resp. 120 characters and never fail; the truncation is
idempotent (re-encoding an already-encoded content string yields the same
content) and content strictly shorter than the maximum is unchanged. -/
theorem truncation_bounded_idempotent (v : JSValue) (s : String) :
    (richContent v).length ≤ 1900 ∧
    (titleContent v).length ≤ 120 ∧
    richContent (.vStr (richContent v)) = richContent v ∧
    titleContent (.vStr (titleContent v)) = titleContent v ∧
    (s.length < 1900 → richContent (.vStr s) = s) ∧
    (s.length < 120 → titleContent (.vStr s) = s) := by
  refine ⟨jsSlice_length _ _, jsSlice_length _ _, ?_, ?_, ?_, ?_⟩
  · show jsSlice (jsSlice _ 1900) 1900 = jsSlice _ 1900
    exact jsSlice_idem _ _
  · show jsSlice (jsSlice _ 120) 120 = jsSlice _ 120
    exact jsSlice_idem _ _
  · intro h
    exact jsSlice_of_lt s 1900 h
  · intro h
    exact jsSlice_of_lt s 120 h

/-- Witness for C4 at a concrete short string. -/
theorem truncation_bounded_idempotent_witness :
    richContent (.vStr "abc") = "abc" ∧ titleContent (.vStr "abc") = "abc" :=
  ⟨(truncation_bounded_idempotent (.vStr "abc") "abc").2.2.2.2.1 (by decide),
   (truncation_bounded_idempotent (.vStr "abc") "abc").2.2.2.2.2 (by decide)⟩

/-- Claim C10: every falsy `singleChoice` value — empty string, `null`,
`undefined`, `false`, `0` — is Omitted by `safeSelect` before the cached
option set is even consulted, for every meta, including one whose option
set lists the empty string. -/
theorem select_falsy_omitted (m : DbMeta) (p : String) :
    safeSelect m p (.vStr "") = none ∧
    safeSelect m p .vNull = none ∧
    safeSelect m p .vUndefined = none ∧
    safeSelect m p (.vBool false) = none ∧
    safeSelect m p (.vNum 0) = none := by
  refine ⟨?_, rfl, rfl, rfl, ?_⟩ <;> simp [safeSelect, truthy]

/-- Claim C8: the value encoders are total and degrade on unexpected
shapes: a non-string value (truthy or not) never produces a selection, a
non-array input never produces a multi-selection, and `null`/`undefined`
become an empty-string text payload instead of raising. -/
theorem encoders_total_degrade (m : DbMeta) (p : String) (v : JSValue) :
    ((∀ s, v ≠ .vStr s) → safeSelect m p v = none) ∧
    (isArr v = false → safeMultiSelect m p v = none) ∧
    richContent .vNull = "" ∧
    richContent .vUndefined = "" ∧
    titleContent .vNull = "" ∧
    titleContent .vUndefined = "" := by
  refine ⟨?_, ?_, rfl, rfl, rfl, rfl⟩
  · intro hv
    cases v with
    | vStr s => exact absurd rfl (hv s)
    | vNull => rfl
    | vUndefined => rfl
    | vBool b =>
      simp only [safeSelect]
      split
      · rfl
      · split <;> rfl
    | vNum n =>
      simp only [safeSelect]
      split
      · rfl
      · split <;> rfl
    | vArr xs =>
      simp only [safeSelect]
      split
      · rfl
      · split <;> rfl
  · intro hv
    cases v <;> simp_all [isArr, safeMultiSelect]

/-- Witness for C8 at concrete degenerate inputs. -/
theorem encoders_total_degrade_witness :
    safeSelect ⟨"Nom", [], [("Statut", ["Active"])]⟩ "Statut" (.vNum 7) = none ∧
    safeMultiSelect ⟨"Nom", [], [("Statut", ["Active"])]⟩ "Statut" (.vStr "Active") = none :=
  ⟨(encoders_total_degrade ⟨"Nom", [], [("Statut", ["Active"])]⟩ "Statut" (.vNum 7)).1
      (fun s h => by cases h),
   (encoders_total_degrade ⟨"Nom", [], [("Statut", ["Active"])]⟩ "Statut" (.vStr "Active")).2.1
      rfl⟩

/-- Claim C2: choice encoding validates against the cached option set.  A
property with no cached set is Omitted; a single-choice string not in the
set is Omitted and one in the set is wrapped as that selection; a produced
selection always names a cached option; a multi-choice result is a
nonempty, order-preserving sub-sequence of the input strings, contains
exactly the allowed input strings, and an input whose filter is empty is
Omitted.  No option outside the cached set is ever produced. -/
theorem choice_encoding_validates_options (m : DbMeta) (p : String) :
    (∀ v, getProp m.selectOptions p = none →
      safeSelect m p v = none ∧ safeMultiSelect m p v = none) ∧
    (∀ s set, getProp m.selectOptions p = some set → set.contains s = false →
      safeSelect m p (.vStr s) = none) ∧
    (∀ s set, getProp m.selectOptions p = some set → set.contains s = true → s ≠ "" →
      safeSelect m p (.vStr s) = some (.selectP s)) ∧
    (∀ v r, safeSelect m p v = some r →
      ∃ s set, v = .vStr s ∧ r = .selectP s ∧ getProp m.selectOptions p = some set ∧
        set.contains s = true) ∧
    (∀ xs r, safeMultiSelect m p (.vArr xs) = some r →
      ∃ ns set, r = .multiSelectP ns ∧ ns ≠ [] ∧ getProp m.selectOptions p = some set ∧
        ns.Sublist (xs.filterMap jsAsString) ∧
        (∀ n ∈ ns, set.contains n = true) ∧
        (∀ s, (JSValue.vStr s) ∈ xs → set.contains s = true → s ∈ ns)) ∧
    (∀ xs set, getProp m.selectOptions p = some set →
      xs.filterMap (multiPick set) = [] → safeMultiSelect m p (.vArr xs) = none) := by
  refine ⟨?_, ?_, ?_, ?_, ?_, ?_⟩
  · intro v hnone
    constructor
    · simp only [safeSelect]
      split
      · rfl
      · rw [hnone]
    · cases v <;> simp only [safeMultiSelect]
      split
      · rfl
      · rw [hnone]
  · intro s set hset hmem
    simp only [safeSelect]
    split
    · rfl
    · rw [hset]
      simp only [hmem, Bool.false_eq_true, if_false]
  · intro s set hset hmem hne
    have ht : ¬ truthy (.vStr s) = false := by
      simp [truthy, hne]
    simp only [safeSelect, if_neg ht]
    rw [hset]
    simp only [hmem, if_true]
  · intro v r h
    simp only [safeSelect] at h
    split at h
    · exact absurd h (by simp)
    · cases hset : getProp m.selectOptions p with
      | none => rw [hset] at h; exact absurd h (by simp)
      | some set =>
        rw [hset] at h
        simp only at h
        cases v with
        | vStr s =>
          simp only at h
          by_cases hmem : set.contains s = true
          · rw [if_pos hmem] at h
            exact ⟨s, set, rfl, (Option.some_inj.mp h).symm, rfl, hmem⟩
          · rw [if_neg hmem] at h
            exact absurd h (by simp)
        | vNull => exact absurd h (by simp)
        | vUndefined => exact absurd h (by simp)
        | vBool b => exact absurd h (by simp)
        | vNum n => exact absurd h (by simp)
        | vArr xs => exact absurd h (by simp)
  · intro xs r h
    simp only [safeMultiSelect] at h
    split at h
    · exact absurd h (by simp)
    · cases hset : getProp m.selectOptions p with
      | none => rw [hset] at h; exact absurd h (by simp)
      | some set =>
        rw [hset] at h
        simp only at h
        split at h
        · exact absurd h (by simp)
        · rename_i hne
          refine ⟨xs.filterMap (multiPick set), set, (Option.some_inj.mp h).symm, ?_, rfl, ?_, ?_, ?_⟩
          · intro hnil
            rw [hnil] at hne
            exact hne rfl
          · refine filterMap_sublist_of_imp _ _ ?_ xs
            intro a b hab
            cases a with
            | vStr s =>
              simp only [multiPick] at hab
              split at hab
              · simpa [jsAsString] using hab
              · exact absurd hab (by simp)
            | vNull => exact absurd hab (by simp [multiPick])
            | vUndefined => exact absurd hab (by simp [multiPick])
            | vBool b2 => exact absurd hab (by simp [multiPick])
            | vNum n => exact absurd hab (by simp [multiPick])
            | vArr ys => exact absurd hab (by simp [multiPick])
          · intro n hn
            obtain ⟨a, ha, hpick⟩ := List.mem_filterMap.mp hn
            cases a with
            | vStr s =>
              simp only [multiPick] at hpick
              split at hpick
              · rename_i hc
                cases hpick
                exact hc
              · exact absurd hpick (by simp)
            | vNull => exact absurd hpick (by simp [multiPick])
            | vUndefined => exact absurd hpick (by simp [multiPick])
            | vBool b2 => exact absurd hpick (by simp [multiPick])
            | vNum n2 => exact absurd hpick (by simp [multiPick])
            | vArr ys => exact absurd hpick (by simp [multiPick])
          · intro s hsmem hc
            exact List.mem_filterMap.mpr ⟨.vStr s, hsmem,
              by simp only [multiPick, hc, if_true]⟩
  · intro xs set hset hempty
    simp only [safeMultiSelect]
    split
    · rfl
    · rw [hset]
      simp only [hempty, List.isEmpty_nil, if_true]

/-- Witness for C2: the spec's scenarios — `"Pending"` against
Active/Closed is Omitted, `["A","C"]` against A/B filters to `["A"]`. -/
theorem choice_encoding_validates_options_witness :
    safeSelect metaEx "Statut" (.vStr "Pending") = none ∧
    safeSelect metaEx "Statut" (.vStr "Active") = some (.selectP "Active") ∧
    safeMultiSelect metaEx "Tags" (.vArr [.vStr "A", .vStr "C"]) =
      some (.multiSelectP ["A"]) :=
  ⟨(choice_encoding_validates_options metaEx "Statut").2.1 "Pending"
      ["Active", "Closed"] rfl (by decide),
   (choice_encoding_validates_options metaEx "Statut").2.2.1 "Active"
      ["Active", "Closed"] rfl (by decide) (by decide),
   by decide⟩

theorem findTitleProp_eq_none (props : List (String × PropDef))
    (h : ∀ nd ∈ props, nd.2.type ≠ "title") : findTitleProp props = none := by
  induction props with
  | nil => rfl
  | cons hd tl ih =>
    obtain ⟨name, d⟩ := hd
    simp only [findTitleProp]
    rw [if_neg (h (name, d) (List.mem_cons_self _ _))]
    exact ih fun nd hnd => h nd (List.mem_cons_of_mem _ hnd)

theorem findTitleProp_eq_some (props : List (String × PropDef)) (t : String)
    (h : findTitleProp props = some t) :
    ∃ pd, (t, pd) ∈ props ∧ pd.type = "title" := by
  induction props with
  | nil => exact absurd h (by simp [findTitleProp])
  | cons hd tl ih =>
    obtain ⟨name, d⟩ := hd
    simp only [findTitleProp] at h
    split at h
    · rename_i ht
      cases h
      exact ⟨d, List.mem_cons_self _ _, ht⟩
    · obtain ⟨pd, hmem, hty⟩ := ih h
      exact ⟨pd, List.mem_cons_of_mem _ hmem, hty⟩

/-- Claim C5: when the retrieved property definitions hold no title-typed
property, `getDbMeta` fails with the `No title property found` error and
no meta is produced; when the scan succeeds the returned `titleProp` names
a title-typed property of the table. -/
theorem schema_requires_title_field (dbId : String) (props : List (String × PropDef)) :
    ((∀ nd ∈ props, nd.2.type ≠ "title") →
      getDbMetaPure dbId props = .error ("No title property found for DB " ++ dbId)) ∧
    (∀ m, getDbMetaPure dbId props = .ok m →
      ∃ pd, (m.titleProp, pd) ∈ props ∧ pd.type = "title") := by
  constructor
  · intro h
    simp only [getDbMetaPure, findTitleProp_eq_none props h]
  · intro m hm
    simp only [getDbMetaPure] at hm
    cases ht : findTitleProp props with
    | none => rw [ht] at hm; exact absurd hm (by simp)
    | some t =>
      rw [ht] at hm
      cases hm
      exact findTitleProp_eq_some props t ht

/-- Witness for C5: a table with only a rich-text property fails, a table
with a title property resolves to it. -/
theorem schema_requires_title_field_witness :
    getDbMetaPure "db1" [("A", ⟨"rich_text", []⟩)] =
      .error "No title property found for DB db1" ∧
    (∃ pd, (metaEx.titleProp, pd) ∈ metaEx.props ∧ pd.type = "title") :=
  ⟨(schema_requires_title_field "db1" [("A", ⟨"rich_text", []⟩)]).1 (by decide),
   (schema_requires_title_field "dbEx" metaEx.props).2 metaEx (by rfl)⟩

/-- Claim C6: once a `getDbMeta` call for a table id has resolved, the next
call for the same id returns the identical cached meta, leaves the cache
unchanged, and issues zero underlying fetches — hence so does every later
call, the state being fixed. -/
theorem schema_cache_single_fetch (fetch : String → List (String × PropDef))
    (c : List (String × DbMeta)) (id : String) (m : DbMeta)
    (h : (getDbMeta fetch c id).result = .ok m) :
    getDbMeta fetch ((getDbMeta fetch c id).cache) id =
      ⟨.ok m, (getDbMeta fetch c id).cache, 0⟩ := by
  cases hc : getProp c id with
  | some m0 =>
    have hx : getDbMeta fetch c id = ⟨.ok m0, c, 0⟩ := by
      simp [getDbMeta, hc]
    rw [hx] at h ⊢
    simp only at h ⊢
    cases h
    simp [getDbMeta, hc]
  | none =>
    cases hp : getDbMetaPure id (fetch id) with
    | error e =>
      have hx : getDbMeta fetch c id = ⟨.error e, c, 1⟩ := by
        simp [getDbMeta, hc, hp]
      rw [hx] at h
      exact absurd h (by simp)
    | ok m0 =>
      have hx : getDbMeta fetch c id = ⟨.ok m0, setProp c id m0, 1⟩ := by
        simp [getDbMeta, hc, hp]
      rw [hx] at h ⊢
      simp only at h ⊢
      cases h
      simp [getDbMeta, getProp_setProp]

/-- Witness for C6: after a first fetch of a one-property table, the second
call is a pure cache hit. -/
theorem schema_cache_single_fetch_witness :
    getDbMeta (fun _ => [("Nom", ⟨"title", []⟩)])
        ((getDbMeta (fun _ => [("Nom", ⟨"title", []⟩)]) [] "db1").cache) "db1" =
      ⟨.ok ⟨"Nom", [("Nom", ⟨"title", []⟩)], []⟩,
       (getDbMeta (fun _ => [("Nom", ⟨"title", []⟩)]) [] "db1").cache, 0⟩ :=
  schema_cache_single_fetch (fun _ => [("Nom", ⟨"title", []⟩)]) [] "db1"
    ⟨"Nom", [("Nom", ⟨"title", []⟩)], []⟩ (by rfl)

/-- A concrete doctrine item for instantiating theorems. -/
def doctrineItemEx : DoctrineItem :=
  ⟨.vStr "Règle A", .vStr "Cat", .vStr "contenu", .vBool true, .vUndefined⟩

/-- A concrete parsed model response for instantiating theorems. -/
def runDataEx : RunData :=
  ⟨.vStr "livrable", .vStr "decision", .vStr "CSE", [.vStr "a1"],
   ⟨[doctrineItemEx], [], []⟩⟩

/-- Claim C1: the journal and doctrine property sets contain the title key
unconditionally, and every other key they contain is a field of the
discovered schema with exactly the type the handler checks for — so a
field name absent from the schema, or present with a different type, never
reaches the create call. -/
theorem props_restricted_to_schema (m : DbMeta) (dc : JSValue) (data : RunData)
    (now : String) (d : DoctrineItem) (k : String) (hk : k ≠ m.titleProp) :
    (getProp (journalProps m dc data now) m.titleProp).isSome ∧
    (getProp (doctrineProps m d) m.titleProp).isSome ∧
    ((getProp (journalProps m dc data now) k).isSome →
      ∃ pd, getProp m.props k = some pd ∧
        ((k = "Date" ∧ pd.type = "date") ∨
         (k = "Résultat produit" ∧ pd.type = "rich_text") ∨
         (k = "Décision prise" ∧ pd.type = "rich_text") ∨
         (k = "Prochaine action" ∧ pd.type = "rich_text") ∨
         (k = "Agents mobilisés" ∧ pd.type = "multi_select"))) ∧
    ((getProp (doctrineProps m d) k).isSome →
      ∃ pd, getProp m.props k = some pd ∧
        ((k = "Contenu" ∧ pd.type = "rich_text") ∨
         (k = "Version" ∧ pd.type = "rich_text") ∨
         (k = "Type" ∧ pd.type = "select") ∨
         (k = "Actif" ∧ pd.type = "checkbox"))) := by
  have hk' : ¬ m.titleProp = k := fun he => hk he.symm
  refine ⟨?_, ?_, ?_, ?_⟩
  · simp only [journalProps]
    apply isSome_cond_match_set_of_isSome
    apply isSome_cond_set_of_isSome
    apply isSome_cond_set_of_isSome
    apply isSome_cond_set_of_isSome
    apply isSome_cond_set_of_isSome
    simp [getProp]
  · simp only [doctrineProps]
    apply isSome_cond_set_of_isSome
    apply isSome_cond_match_set_of_isSome
    apply isSome_cond_set_of_isSome
    apply isSome_cond_set_of_isSome
    simp [getProp]
  · simp only [journalProps]
    intro h
    rcases isSome_cond_match_set _ _ _ _ h with ⟨rfl, hc⟩ | h
    · obtain ⟨pd, hpd, hty⟩ := (propType_eq_iff m _ _).mp hc
      exact ⟨pd, hpd, .inr (.inr (.inr (.inr ⟨rfl, hty⟩)))⟩
    rcases isSome_cond_set _ _ _ _ h with ⟨rfl, hc⟩ | h
    · obtain ⟨pd, hpd, hty⟩ := (propType_eq_iff m _ _).mp hc
      exact ⟨pd, hpd, .inr (.inr (.inr (.inl ⟨rfl, hty⟩)))⟩
    rcases isSome_cond_set _ _ _ _ h with ⟨rfl, hc⟩ | h
    · obtain ⟨pd, hpd, hty⟩ := (propType_eq_iff m _ _).mp hc
      exact ⟨pd, hpd, .inr (.inr (.inl ⟨rfl, hty⟩))⟩
    rcases isSome_cond_set _ _ _ _ h with ⟨rfl, hc⟩ | h
    · obtain ⟨pd, hpd, hty⟩ := (propType_eq_iff m _ _).mp hc
      exact ⟨pd, hpd, .inr (.inl ⟨rfl, hty⟩)⟩
    rcases isSome_cond_set _ _ _ _ h with ⟨rfl, hc⟩ | h
    · obtain ⟨pd, hpd, hty⟩ := (propType_eq_iff m _ _).mp hc
      exact ⟨pd, hpd, .inl ⟨rfl, hty⟩⟩
    · simp [getProp, hk'] at h
  · simp only [doctrineProps]
    intro h
    rcases isSome_cond_set _ _ _ _ h with ⟨rfl, hc⟩ | h
    · obtain ⟨pd, hpd, hty⟩ := (propType_eq_iff m _ _).mp hc
      exact ⟨pd, hpd, .inr (.inr (.inr ⟨rfl, hty⟩))⟩
    rcases isSome_cond_match_set _ _ _ _ h with ⟨rfl, hc⟩ | h
    · obtain ⟨pd, hpd, hty⟩ := (propType_eq_iff m _ _).mp hc
      exact ⟨pd, hpd, .inr (.inr (.inl ⟨rfl, hty⟩))⟩
    rcases isSome_cond_set _ _ _ _ h with ⟨rfl, hc⟩ | h
    · obtain ⟨pd, hpd, hty⟩ := (propType_eq_iff m _ _).mp hc
      exact ⟨pd, hpd, .inr (.inl ⟨rfl, hty⟩)⟩
    rcases isSome_cond_set _ _ _ _ h with ⟨rfl, hc⟩ | h
    · obtain ⟨pd, hpd, hty⟩ := (propType_eq_iff m _ _).mp hc
      exact ⟨pd, hpd, .inl ⟨rfl, hty⟩⟩
    · simp [getProp, hk'] at h

/-- Witness for C1: against a schema with only `Nom`/`Statut`/`Tags`, the
journal and doctrine property sets contain the title key. -/
theorem props_restricted_to_schema_witness :
    (getProp (journalProps metaEx (.vStr "demande") runDataEx "2026-01-01T00:00:00Z")
      metaEx.titleProp).isSome ∧
    (getProp (doctrineProps metaEx doctrineItemEx) metaEx.titleProp).isSome :=
  ⟨(props_restricted_to_schema metaEx (.vStr "demande") runDataEx "2026-01-01T00:00:00Z"
      doctrineItemEx "Date" (by decide)).1,
   (props_restricted_to_schema metaEx (.vStr "demande") runDataEx "2026-01-01T00:00:00Z"
      doctrineItemEx "Date" (by decide)).2.1⟩

theorem getProp_cond_set_preserve (m : DbMeta) (p : List (String × NotionProp))
    (key t : String) (v : NotionProp) (htitle : propType m m.titleProp = some "title")
    (hne : t ≠ "title") :
    getProp (if propType m key = some t then setProp p key v else p) m.titleProp =
      getProp p m.titleProp := by
  by_cases hc : propType m key = some t
  · have hkne : ¬ key = m.titleProp := by
      intro he
      rw [he, htitle] at hc
      exact hne (Option.some_inj.mp hc).symm
    rw [if_pos hc, getProp_setProp, if_neg hkne]
  · rw [if_neg hc]

theorem getProp_cond_match_set_preserve (m : DbMeta) (p : List (String × NotionProp))
    (key t : String) (o : Option NotionProp) (htitle : propType m m.titleProp = some "title")
    (hne : t ≠ "title") :
    getProp (if propType m key = some t then (match o with
        | some s => setProp p key s
        | none => p) else p) m.titleProp =
      getProp p m.titleProp := by
  by_cases hc : propType m key = some t
  · have hkne : ¬ key = m.titleProp := by
      intro he
      rw [he, htitle] at hc
      exact hne (Option.some_inj.mp hc).symm
    rw [if_pos hc]
    cases o with
    | none => rfl
    | some s =>
      simp only
      rw [getProp_setProp, if_neg hkne]
  · rw [if_neg hc]

/-- The doctrine item of the C7 counterexample: the model proposed an empty
`titre`. -/
def doctrineItemEmptyTitre : DoctrineItem :=
  ⟨.vStr "", .vUndefined, .vStr "contenu", .vBool true, .vUndefined⟩

/-- Claim C7 counterexample: the doctrine create of `POST /run` applies no
placeholder fallback — with an empty `titre` the built property set's
title content is the empty string, not a default placeholder text. -/
theorem doctrine_empty_title_no_placeholder_cex :
    getProp (doctrineProps metaEx doctrineItemEmptyTitre) metaEx.titleProp =
      some (.titleP "") ∧ ("" : String) ≠ "Run IA" := by
  constructor
  · rfl
  · decide

/-- Claim C7 (amended): every create's property set includes the title
key; the journal create falls back to the `"Run IA"` placeholder when
`demande_client` is falsy, while the doctrine create uses the produced
`titre` as-is (truncated), with no placeholder for an empty title. -/
theorem title_always_present_journal_fallback (m : DbMeta) (dc : JSValue)
    (data : RunData) (now : String) (d : DoctrineItem)
    (htitle : propType m m.titleProp = some "title") (hfalsy : truthy dc = false) :
    getProp (journalProps m dc data now) m.titleProp =
      some (titleProp (.vStr "Run IA")) ∧
    getProp (doctrineProps m d) m.titleProp = some (titleProp d.titre) := by
  constructor
  · simp only [journalProps]
    rw [getProp_cond_match_set_preserve m _ _ _ _ htitle (by decide),
      getProp_cond_set_preserve m _ _ _ _ htitle (by decide),
      getProp_cond_set_preserve m _ _ _ _ htitle (by decide),
      getProp_cond_set_preserve m _ _ _ _ htitle (by decide),
      getProp_cond_set_preserve m _ _ _ _ htitle (by decide)]
    simp [getProp, jsOr, hfalsy]
  · simp only [doctrineProps]
    rw [getProp_cond_set_preserve m _ _ _ _ htitle (by decide),
      getProp_cond_match_set_preserve m _ _ _ _ htitle (by decide),
      getProp_cond_set_preserve m _ _ _ _ htitle (by decide),
      getProp_cond_set_preserve m _ _ _ _ htitle (by decide)]
    simp [getProp]

/-- Witness for C7 (amended) at an empty request against `metaEx`. -/
theorem title_always_present_journal_fallback_witness :
    getProp (journalProps metaEx (.vStr "") runDataEx "2026-01-01T00:00:00Z")
      metaEx.titleProp = some (titleProp (.vStr "Run IA")) :=
  (title_always_present_journal_fallback metaEx (.vStr "") runDataEx
    "2026-01-01T00:00:00Z" doctrineItemEx (by decide) (by decide)).1

/-- Claim C3 counterexample: with a doctrine item whose title `"Règle A"`
already exists among the store's titles, the doctrine write path still
issues zero queries, zero updates and one create — not the one query plus
one update (and no create) the claim demands. -/
theorem doctrine_write_not_upsert_cex :
    ["Règle A"].contains (jsString doctrineItemEx.titre) = true ∧
    countQueries (doctrineWriteLoop metaEx "dbDoc" [doctrineItemEx]) = 0 ∧
    countUpdates (doctrineWriteLoop metaEx "dbDoc" [doctrineItemEx]) = 0 ∧
    countCreates (doctrineWriteLoop metaEx "dbDoc" [doctrineItemEx]) = 1 := by
  refine ⟨by decide, rfl, rfl, rfl⟩

/-- Claim C3 (amended): the doctrine write path performs exactly one create
call per proposed item and never issues a query or an update, whether or
not a record with the same title already exists — there is no
upsert-by-title. -/
theorem doctrine_writes_create_only (m : DbMeta) (dbId : String)
    (items : List DoctrineItem) :
    countQueries (doctrineWriteLoop m dbId items) = 0 ∧
    countUpdates (doctrineWriteLoop m dbId items) = 0 ∧
    countCreates (doctrineWriteLoop m dbId items) = items.length := by
  induction items with
  | nil => exact ⟨rfl, rfl, rfl⟩
  | cons d rest ih =>
    obtain ⟨hq, hu, hc⟩ := ih
    refine ⟨?_, ?_, ?_⟩ <;>
      simp_all [doctrineWriteLoop, countQueries, countUpdates, countCreates,
        List.countP_cons]

/-- Claim C9: when the model response does not parse as JSON, the `/run`
handler answers with a failure and performs no Notion write at all — every
create call is sequenced strictly after a successful parse. -/
theorem parse_failure_no_writes (mJ mD mP mS : DbMeta) (dc : JSValue)
    (now a b c e : String) :
    runHandler none mJ mD mP mS dc now a b c e = ⟨false, []⟩ ∧
    countCreates (runHandler none mJ mD mP mS dc now a b c e).calls = 0 :=
  ⟨rfl, rfl⟩

end InnovaCSE
